import Mathlib

/-!
Verification of cpuwatch (src/main.c): a shallow embedding in Lean 4 of

  - the command-line argument validator `parseCmdLine` (main.c lines 210-464),
    including the behaviour of GNU `getopt_long` as configured by the program
    (option string ":ho:c:n:i:" and the long-option table at lines 243-250);
  - the sampling engine of `main` (lines 83-143) with its sample window,
    the windowed utilization formula, and the per-tick I/O outcomes of
    `readuptime` (lines 154-171) and `writeutil` (lines 181-194).

C `double` arithmetic is embedded as exact rational arithmetic; C `int`
accumulation is embedded as unbounded integers (signed overflow is undefined
behaviour in the source; all values exercised by the claims are tiny).
Command-line arguments are lists of characters; `parseCmdLine` receives the
argument vector after the program name (argv[1..]), exactly the part
`getopt_long` inspects.
-/

namespace Cpuwatch

/-! ## Characters and digit strings -/

/-- The digit test the source performs by hand: not (c < '0' or c > '9'). -/
def isDig (c : Char) : Bool := '0' ≤ c && c ≤ '9'

/-- Numeric value of a digit character, as computed by the source: c - '0'. -/
def digVal (c : Char) : Nat := c.toNat - '0'.toNat

/-- Digit character for a value below 10 (used for the printf model). -/
def digitChar (n : Nat) : Char := Char.ofNat (48 + n)

/-- Decimal digit emission with explicit fuel (structural, so that concrete
values evaluate inside the kernel); the fuel-exhausted base case emits a
digit as well so that every emitted character is a digit unconditionally. -/
def natDigitsAux : Nat → Nat → List Char
  | 0, n => [digitChar (n % 10)]
  | fuel + 1, n =>
    if n < 10 then [digitChar n]
    else natDigitsAux fuel (n / 10) ++ [digitChar (n % 10)]

/-- Decimal digit string of a natural number, most significant digit first,
as printf prints the integer part of a nonnegative value (fuel n always
suffices, since a number has at most as many digits as its value). -/
def natDigits (n : Nat) : List Char := natDigitsAux n n

/-! ## Numeric scans of option values

`parseCmdLine` converts option values by hand.  `iScan1`/`iScan2` mirror the
two loops of case 'i' (main.c lines 268-296): scan digits accumulating into
a double; on the first non-digit, flag the value as bad unless it is '.';
after a '.', scan digits counting them in `v`, flagging on any non-digit;
finally divide by 10^v.  The scanned value is assigned to the interval field
whether or not the value was flagged.  `cScan` mirrors the integer loop of
cases 'c' and 'n' (lines 302-310 and 317-325): scan digits, flagging and
stopping at the first non-digit; the accumulated value is assigned anyway. -/

/-- Second loop of case 'i' (after the dot): returns the value assigned to
`options.interval` and whether the value was flagged as bad. -/
def iScan2 : List Char → ℚ → Nat → ℚ × Bool
  | [], d, v => (d / 10 ^ v, false)
  | ch :: cs, d, v =>
    if isDig ch then iScan2 cs (d * 10 + (digVal ch : ℚ)) (v + 1)
    else (d / 10 ^ v, true)

/-- First loop of case 'i': integer part, continuing into `iScan2` at a dot. -/
def iScan1 : List Char → ℚ → ℚ × Bool
  | [], d => (d, false)
  | ch :: cs, d =>
    if isDig ch then iScan1 cs (d * 10 + (digVal ch : ℚ))
    else if ch = '.' then iScan2 cs d 0
    else (d, true)

/-- Conversion of a value supplied to -i or --interval: (value, bad flag). -/
def intervalScan (s : List Char) : ℚ × Bool := iScan1 s 0

/-- Integer loop of cases 'c' and 'n'. -/
def cScan : List Char → Int → Int × Bool
  | [], v => (v, false)
  | ch :: cs, v =>
    if isDig ch then cScan cs (v * 10 + (digVal ch : Int))
    else (v, true)

/-- Conversion of a value supplied to -c or -n: (value, bad flag). -/
def intScan (s : List Char) : Int × Bool := cScan s 0

/-! ## Value patterns

`specDecimal` and `specInt` are written from the spec's words, for claim C2:
a decimal value must match digits ('.' digits)? and an integer value must be
a nonempty string of digits.  `looseDecimal` is the pattern the scanner
actually enforces: digits* ('.' digits*)?, all digit groups possibly empty. -/

/-- From the spec's words: the pattern digits ('.' digits)?. -/
def specDecimal (s : List Char) : Bool :=
  !(s.takeWhile isDig).isEmpty &&
  (match s.dropWhile isDig with
   | [] => true
   | c :: rest => c == '.' && !rest.isEmpty && rest.all isDig)

/-- From the spec's words: a nonempty string of digits only. -/
def specInt (s : List Char) : Bool := !s.isEmpty && s.all isDig

/-- The pattern actually accepted for -i values: digits* ('.' digits*)?. -/
def looseDecimal (s : List Char) : Bool :=
  match s.dropWhile isDig with
  | [] => true
  | c :: rest => c == '.' && rest.all isDig

/-! ## The argument validator `parseCmdLine` (main.c lines 210-464) -/

/-- A command-line argument: one argv element. -/
abbrev Arg := List Char

/-- The four value-taking options of the option string ":ho:c:n:i:". -/
inductive Opt
  | o | i | c | n
deriving DecidableEq, Repr

/-- The state `parseCmdLine` accumulates: the `options` structure fields
(`output`, `interval`, `ncpu`, `avg`, `given_h`) together with the local
error bookkeeping (`given_*` counters, bad-value literals in encounter
order, and the unrecognized / missing-argument counters). -/
structure PState where
  output : Option Arg
  interval : ℚ
  ncpu : Int
  avg : Int
  given_h : Bool
  given_o : Nat
  given_i : Nat
  given_c : Nat
  given_n : Nat
  badintervals : List Arg
  badncpus : List Arg
  badavgs : List Arg
  nunrecognized : Nat
  nmissing : Nat
deriving DecidableEq, Repr

/-- Initial state (main.c lines 212-235). -/
def initPState : PState where
  output := none
  interval := 1
  ncpu := 0
  avg := 1
  given_h := false
  given_o := 0
  given_i := 0
  given_c := 0
  given_n := 0
  badintervals := []
  badncpus := []
  badavgs := []
  nunrecognized := 0
  nmissing := 0

/-- Effect of one value-carrying option occurrence on the state: the switch
cases 'o' (lines 261-264), 'i' (265-298), 'c' (299-313), 'n' (314-328). -/
def applyOpt (st : PState) (op : Opt) (arg : Arg) : PState :=
  match op with
  | .o =>
    { st with given_o := st.given_o + 1, output := some arg }
  | .i =>
    { st with given_i := st.given_i + 1,
              interval := (intervalScan arg).1,
              badintervals :=
                st.badintervals ++ if (intervalScan arg).2 then [arg] else [] }
  | .c =>
    { st with given_c := st.given_c + 1,
              ncpu := (intScan arg).1,
              badncpus :=
                st.badncpus ++ if (intScan arg).2 then [arg] else [] }
  | .n =>
    { st with given_n := st.given_n + 1,
              avg := (intScan arg).1,
              badavgs :=
                st.badavgs ++ if (intScan arg).2 then [arg] else [] }

/-- Which short option a character names, per the option string ":ho:c:n:i:"
(h is handled separately because it short-circuits). -/
def optOfChar (ch : Char) : Option Opt :=
  if ch = 'o' then some .o
  else if ch = 'i' then some .i
  else if ch = 'c' then some .c
  else if ch = 'n' then some .n
  else none

/-- Outcome of scanning one cluster of short options ("-abc"): either help was
hit (immediate return), or the cluster finished, or it ended at an option
that needs its value from the next argv element. -/
inductive ShortOut
  | help (st : PState)
  | cont (st : PState)
  | need (op : Opt) (st : PState)
deriving Repr

/-- getopt's processing of the characters of one short-option cluster:
'h' returns immediately (case 'h', lines 258-260); a value-taking option
takes the rest of the cluster as its value if nonempty, otherwise the next
argv element; an unknown character is collected as unrecognized (case '?',
lines 329-332) and scanning continues inside the cluster. -/
def shortChars : List Char → PState → ShortOut
  | [], st => .cont st
  | ch :: cs, st =>
    if ch = 'h' then .help { st with given_h := true }
    else
      match optOfChar ch with
      | some op =>
        match cs with
        | [] => .need op st
        | _ :: _ => .cont (applyOpt st op cs)
      | none => shortChars cs { st with nunrecognized := st.nunrecognized + 1 }

/-- Boolean list-prefix test (for GNU long-option abbreviation matching). -/
def isPre : Arg → Arg → Bool
  | [], _ => true
  | _ :: _, [] => false
  | a :: as, b :: bs => a == b && isPre as bs

/-- What a long-option table entry stands for. -/
inductive LongKind
  | opt (op : Opt)
  | help
deriving DecidableEq, Repr

/-- The long-option table of main.c lines 243-250.  Note the registered name
for 'c' is "ncpu", even though the usage text advertises --cpus. -/
def longTable : List (Arg × LongKind) :=
  [("output".toList, .opt .o),
   ("interval".toList, .opt .i),
   ("ncpu".toList, .opt .c),
   ("samples".toList, .opt .n),
   ("help".toList, .help)]

/-- GNU long-option name matching: an exact match, otherwise a prefix
matching exactly one table entry (abbreviation); anything else fails. -/
def longMatch (name : Arg) : Option LongKind :=
  match longTable.filter (fun p => p.1 == name) with
  | [p] => some p.2
  | _ =>
    match longTable.filter (fun p => isPre name p.1) with
    | [p] => some p.2
    | _ => none

/-- Split a long-option body "name=value" at the first '='. -/
def splitEq : List Char → Arg × Option Arg
  | [] => ([], none)
  | '=' :: rest => ([], some rest)
  | ch :: rest => (ch :: (splitEq rest).1, (splitEq rest).2)

/-- How the getopt loop of `parseCmdLine` ends: either case 'h' returned
immediately (line 260), or the loop ran to the end of the arguments. -/
inductive LoopResult
  | help (st : PState)
  | done (st : PState)
deriving Repr

/-- The getopt_long loop of `parseCmdLine` (lines 256-342) over the argument
vector.  The `pending` parameter carries a value-taking option whose value
getopt must take from the next argv element (taken unconditionally, even if
it looks like an option); at the end of the arguments a pending option is a
missing-argument error (case ':', lines 333-335, enabled by the leading ':'
of the option string).  "--" ends option scanning; a non-option element is
skipped (GNU permutation); "--name" or "--name=value" is a long option;
"-c..." is a short-option cluster. -/
def parseLoop : List Arg → Option Opt → PState → LoopResult
  | [], none, st => .done st
  | [], some _, st => .done { st with nmissing := st.nmissing + 1 }
  | a :: rest, some op, st => parseLoop rest none (applyOpt st op a)
  | a :: rest, none, st =>
    match a with
    | '-' :: '-' :: [] => .done st
    | '-' :: '-' :: nameEq =>
      (match longMatch (splitEq nameEq).1 with
       | some .help =>
         (match (splitEq nameEq).2 with
          | none => .help { st with given_h := true }
          | some _ =>
            parseLoop rest none
              { st with nunrecognized := st.nunrecognized + 1 })
       | some (.opt op) =>
         (match (splitEq nameEq).2 with
          | some v => parseLoop rest none (applyOpt st op v)
          | none => parseLoop rest (some op) st)
       | none =>
         parseLoop rest none { st with nunrecognized := st.nunrecognized + 1 })
    | '-' :: ch :: cs =>
      (match shortChars (ch :: cs) st with
       | .help st' => .help st'
       | .cont st' => parseLoop rest none st'
       | .need op st' => parseLoop rest (some op) st')
    | _ => parseLoop rest none st

/-- The number of error categories reported, mirroring the `errors` counter
of main.c lines 344-455: each nonempty category contributes one. -/
def errCount (st : PState) : Nat :=
  (if st.nunrecognized ≠ 0 then 1 else 0) +
  (if st.nmissing ≠ 0 then 1 else 0) +
  (if st.given_o > 1 then 1 else 0) +
  (if st.given_o = 0 then 1 else 0) +
  (if st.given_i > 1 then 1 else 0) +
  (if st.badintervals ≠ [] then 1 else 0) +
  (if st.given_c > 1 then 1 else 0) +
  (if st.given_c = 0 then 1 else 0) +
  (if st.badncpus ≠ [] then 1 else 0) +
  (if st.given_n > 1 then 1 else 0) +
  (if st.badavgs ≠ [] then 1 else 0)

/-- `parseCmdLine` on argv[1..]: returns the C return value (0 on success and
on the immediate help return; -1, i.e. failure with EINVAL, when any error
category is nonempty, lines 457-461) together with the final state. -/
def parseCmdLine (args : List Arg) : Int × PState :=
  match parseLoop args none initPState with
  | .help st => (0, st)
  | .done st => (if errCount st = 0 then 0 else -1, st)

/-- Convenience: argument vectors from string literals. -/
def toArgs (l : List String) : List Arg := l.map String.toList

/-- main's argument-phase decision (lines 87-90): print usage and exit -1
when `parseCmdLine` failed or help was requested; otherwise run the engine. -/
def usageExit (args : List Arg) : Bool :=
  (parseCmdLine args).1 < 0 || (parseCmdLine args).2.given_h

/-! ## The sampling engine (main.c lines 83-143)

`main` keeps an array `times[avg+1][2]` of (uptime, idletime) samples,
oldest first.  It reads one sample, computes a cold-start utilization from
that single sample (line 103), replicates the sample across the array
(lines 106-109), then loops forever: write the utilization, sleep, shift
the array left by one, read a fresh sample into the last slot, and
recompute the utilization from the last and first slots (lines 113-140).
A sample sequence `samp : Nat -> Sample` gives the successive readings
`readuptime` returns; `samp 0` is the initial read at line 100 and
`samp (k+1)` the read of loop iteration k (line 132). -/

/-- One reading of /proc/uptime: (uptime, idletime). -/
abbrev Sample := ℚ × ℚ

/-- The engine state: the `times` array (oldest first) and the current
utilization `u`. -/
structure Engine where
  window : List Sample
  util : ℚ

/-- The delta utilization formula of lines 137-139:
100 - 100 * ((idletimediff / ncpu) / uptimediff). -/
def utilCalc (ncpu : ℚ) (old nw : Sample) : ℚ :=
  100 - 100 * (((nw.2 - old.2) / ncpu) / (nw.1 - old.1))

/-- Lines 100-109: first reading, cold-start utilization
100 - 100 * ((idle / ncpu) / uptime), and the padded window. -/
def initEngine (ncpu : ℚ) (avg : Nat) (s0 : Sample) : Engine :=
  { window := List.replicate (avg + 1) s0
  , util := 100 - 100 * ((s0.2 / ncpu) / s0.1) }

/-- Lines 127-139: shift the window left by one, append the fresh sample,
and recompute the utilization from slots `avg` (newest) and 0 (oldest). -/
def tick (ncpu : ℚ) (avg : Nat) (e : Engine) (s : Sample) : Engine :=
  { window := e.window.drop 1 ++ [s]
  , util := utilCalc ncpu ((e.window.drop 1 ++ [s]).getD 0 (0, 0))
                         ((e.window.drop 1 ++ [s]).getD avg (0, 0)) }

/-- Engine state after k loop iterations (k = 0: after the initialization of
lines 100-109, before the first write). -/
def engineAt (ncpu : ℚ) (avg : Nat) (samp : Nat → Sample) : Nat → Engine
  | 0 => initEngine ncpu avg (samp 0)
  | k + 1 => tick ncpu avg (engineAt ncpu avg samp k) (samp (k + 1))

/-! ## The output format of `writeutil` (lines 181-194)

`writeutil` opens the output path with mode "w" (truncating it), prints
with format "%.1f%%", and closes the file, so after a successful write the
file contains exactly the formatted value and nothing else.  `fmt1` models
"%.1f" over the exact rationals of the embedding: the value rounded to the
nearest tenth (printf rounds the IEEE double to nearest; a double is a
dyadic rational and an exact tie at an odd multiple of 1/20 is not dyadic,
so no tie-break ever arises and round-half-up agrees with the C library;
the "-0.0" printed for a negative value rounding to zero is not modelled,
and no claim exercises a negative value). -/

/-- The value times 10, rounded to the nearest integer (half away up):
for u = p/q this is floor((20p + q) / 2q), computed on num/den directly. -/
def roundTenth (u : ℚ) : Int := (20 * u.num + u.den).fdiv (2 * u.den)

/-- The bytes "%.1f" produces for the modelled value. -/
def fmt1 (u : ℚ) : List Char :=
  (if roundTenth u < 0 then ['-'] else []) ++
  natDigits ((roundTenth u).natAbs / 10) ++
  ['.', digitChar ((roundTenth u).natAbs % 10)]

/-- The full file content a successful `writeutil` leaves behind: the file
is truncated on open, so the content is exactly "%.1f%%" of the value. -/
def writeutil (u : ℚ) : List Char := fmt1 u ++ ['%']

/-- The return value of `writeutil` (lines 183-193): -1 when fopen fails,
otherwise 0 — the results of fprintf and fclose are never inspected, so a
failure of the stream write itself does not make `writeutil` fail. -/
def writeutilRet (openOk : Bool) : Int := if openOk then 0 else -1

/-! ## The sampling loop with its per-tick I/O outcomes (lines 113-140) -/

/-- Environment outcomes of one loop iteration: whether fopen of the output
file succeeds, whether the stream write (fprintf + fclose) actually
persists the data (its result is ignored by the code), and the result of
`readuptime` (none: fopen of /proc/uptime fails or fscanf does not scan
two numbers, lines 154-171, making readuptime return -1). -/
structure IOTick where
  openOk : Bool
  streamOk : Bool
  read : Option Sample
deriving DecidableEq

/-- The infinite loop of lines 113-140, driven by a finite prefix of
environment outcomes (an exhausted list models external termination, the
only other way the loop ends).  Per iteration: attempt the write — if
`writeutil` reports failure (fopen failed) return -1 immediately; record
the attempted write as (persisted?, value); sleep (a benign EINTR is not an
error and is not modelled as one); shift and read — on read failure return
-1 immediately; otherwise recompute and continue.  Returns the recorded
write attempts and the exit status (none: still running). -/
def mainLoop (ncpu : ℚ) (avg : Nat) : List IOTick → Engine → List (Bool × ℚ) × Option Int
  | [], _ => ([], none)
  | t :: ts, e =>
    if writeutilRet t.openOk < 0 then ([], some (-1))
    else
      match t.read with
      | some s =>
        ((t.streamOk, e.util) :: (mainLoop ncpu avg ts (tick ncpu avg e s)).1,
         (mainLoop ncpu avg ts (tick ncpu avg e s)).2)
      | none => ([(t.streamOk, e.util)], some (-1))

/-- Lines 96-140 as a whole: the initial read (none: readuptime fails at
line 100, exit -1 before anything is written), then the loop. -/
def mainRun (ncpu : ℚ) (avg : Nat) (r0 : Option Sample) (ticks : List IOTick) :
    List (Bool × ℚ) × Option Int :=
  match r0 with
  | none => ([], some (-1))
  | some s0 => mainLoop ncpu avg ticks (initEngine ncpu avg s0)

/-- The concrete reading sequence of claim C4: (100.0, 80.0) then
(101.0, 80.5). -/
def c4samp : Nat → Sample := fun j => if j = 0 then (100, 80) else (101, 161 / 2)

/-! ## Scanner lemmas: the bad-value flags as patterns -/

theorem cScan_snd (s : List Char) : ∀ v : Int, (cScan s v).2 = !s.all isDig := by
  induction s with
  | nil => intro v; rfl
  | cons ch cs ih =>
    intro v
    cases h : isDig ch with
    | true => simp [cScan, h, ih]
    | false => simp [cScan, h]

theorem iScan2_snd (s : List Char) : ∀ (d : ℚ) (v : Nat), (iScan2 s d v).2 = !s.all isDig := by
  induction s with
  | nil => intro d v; rfl
  | cons ch cs ih =>
    intro d v
    cases h : isDig ch with
    | true => simp [iScan2, h, ih]
    | false => simp [iScan2, h]

theorem iScan1_snd (s : List Char) : ∀ d : ℚ, (iScan1 s d).2 = !looseDecimal s := by
  induction s with
  | nil => intro d; rfl
  | cons ch cs ih =>
    intro d
    cases h : isDig ch with
    | true => simp [iScan1, h, ih, looseDecimal, List.dropWhile_cons]
    | false =>
      by_cases hd : ch = '.'
      · subst hd
        simp [iScan1, h, iScan2_snd, looseDecimal, List.dropWhile_cons]
      · simp [iScan1, h, hd, looseDecimal, List.dropWhile_cons]

/-- The -i flag is raised exactly when the value does not match
digits* ('.' digits*)?. -/
theorem intervalScan_snd (s : List Char) : (intervalScan s).2 = !looseDecimal s :=
  iScan1_snd s 0

/-- The -c and -n flag is raised exactly when the value has a non-digit. -/
theorem intScan_snd (s : List Char) : (intScan s).2 = !s.all isDig :=
  cScan_snd s 0

/-! ## Help short-circuit lemmas -/

theorem applyOpt_given_h (st : PState) (op : Opt) (a : Arg) :
    (applyOpt st op a).given_h = st.given_h := by
  cases op <;> rfl

theorem shortChars_given_h (cs : List Char) : ∀ st : PState,
    (∀ st', shortChars cs st = .help st' → st'.given_h = true) ∧
    (∀ st', shortChars cs st = .cont st' → st'.given_h = st.given_h) ∧
    (∀ op st', shortChars cs st = .need op st' → st'.given_h = st.given_h) := by
  induction cs with
  | nil =>
    intro st
    refine ⟨?_, ?_, ?_⟩
    · intro st' hres
      cases hres
    · intro st' hres
      injection hres with h
      rw [← h]
    · intro op st' hres
      cases hres
  | cons ch cs ih =>
    intro st
    by_cases hh : ch = 'h'
    · subst hh
      have hstep : shortChars ('h' :: cs) st = .help { st with given_h := true } := rfl
      refine ⟨?_, ?_, ?_⟩
      · intro st' hres
        rw [hstep] at hres
        injection hres with h
        rw [← h]
      · intro st' hres
        rw [hstep] at hres
        cases hres
      · intro op st' hres
        rw [hstep] at hres
        cases hres
    · cases ho : optOfChar ch with
      | some op =>
        cases cs with
        | nil =>
          have hstep : shortChars [ch] st = .need op st := by
            simp [shortChars, hh, ho]
          refine ⟨?_, ?_, ?_⟩
          · intro st' hres
            rw [hstep] at hres
            cases hres
          · intro st' hres
            rw [hstep] at hres
            cases hres
          · intro op' st' hres
            rw [hstep] at hres
            injection hres with h1 h2
            rw [← h2]
        | cons c2 cs2 =>
          have hstep : shortChars (ch :: c2 :: cs2) st
              = .cont (applyOpt st op (c2 :: cs2)) := by
            simp [shortChars, hh, ho]
          refine ⟨?_, ?_, ?_⟩
          · intro st' hres
            rw [hstep] at hres
            cases hres
          · intro st' hres
            rw [hstep] at hres
            injection hres with h
            rw [← h]
            exact applyOpt_given_h st op (c2 :: cs2)
          · intro op' st' hres
            rw [hstep] at hres
            cases hres
      | none =>
        have hstep : shortChars (ch :: cs) st
            = shortChars cs { st with nunrecognized := st.nunrecognized + 1 } := by
          simp [shortChars, hh, ho]
        refine ⟨?_, ?_, ?_⟩
        · intro st' hres
          rw [hstep] at hres
          exact (ih { st with nunrecognized := st.nunrecognized + 1 }).1 _ hres
        · intro st' hres
          rw [hstep] at hres
          exact (ih { st with nunrecognized := st.nunrecognized + 1 }).2.1 _ hres
        · intro op st' hres
          rw [hstep] at hres
          exact (ih { st with nunrecognized := st.nunrecognized + 1 }).2.2 _ _ hres

theorem parseLoop_given_h (args : List Arg) : ∀ (pend : Option Opt) (st : PState),
    (∀ st', parseLoop args pend st = .help st' → st'.given_h = true) ∧
    (∀ st', parseLoop args pend st = .done st' → st'.given_h = st.given_h) := by
  induction args with
  | nil =>
    intro pend st
    cases pend with
    | none =>
      refine ⟨?_, ?_⟩
      · intro st' hres
        cases hres
      · intro st' hres
        injection hres with h
        rw [← h]
    | some op =>
      refine ⟨?_, ?_⟩
      · intro st' hres
        cases hres
      · intro st' hres
        injection hres with h
        rw [← h]
  | cons a rest ih =>
    intro pend st
    cases pend with
    | some op =>
      refine ⟨?_, ?_⟩
      · intro st' hres
        exact (ih none (applyOpt st op a)).1 _ hres
      · intro st' hres
        have hgh := (ih none (applyOpt st op a)).2 _ hres
        rw [hgh]
        exact applyOpt_given_h _ _ _
    | none =>
      refine ⟨?_, ?_⟩
      · intro st' hres
        simp only [parseLoop] at hres
        repeat' split at hres
        all_goals try cases hres
        all_goals try rfl
        all_goals try exact (ih _ _).1 _ hres
        all_goals try exact (shortChars_given_h _ _).1 _ (by assumption)
      · intro st' hres
        simp only [parseLoop] at hres
        repeat' split at hres
        all_goals try cases hres
        all_goals try rfl
        all_goals try exact (ih _ _).2 _ hres
        all_goals
          try (have hgh := (ih _ _).2 _ hres
               rw [hgh]
               try exact applyOpt_given_h _ _ _
               try exact (shortChars_given_h _ _).2.1 _ (by assumption)
               try exact (shortChars_given_h _ _).2.2 _ _ (by assumption))

/-- A help return from the loop has `given_h` set, so when `given_h` is
unset the loop finished and the return value is decided by the error
check of lines 457-461. -/
theorem parseCmdLine_ret (args : List Arg)
    (hh : (parseCmdLine args).2.given_h = false) :
    ((parseCmdLine args).1 = -1 ↔ errCount (parseCmdLine args).2 ≠ 0) := by
  cases hres : parseLoop args none initPState with
  | help st =>
    have h1 : parseCmdLine args = (0, st) := by
      simp only [parseCmdLine, hres]
    rw [h1] at hh
    have h2 := (parseLoop_given_h args none initPState).1 st hres
    simp only at hh
    rw [h2] at hh
    cases hh
  | done st =>
    have h1 : parseCmdLine args = (if errCount st = 0 then 0 else -1, st) := by
      simp only [parseCmdLine, hres]
    rw [h1]
    by_cases he : errCount st = 0 <;> simp [he]

/-! ## Engine window lemmas -/

theorem getD_map_range {α : Type} (f : Nat → α) (n i : Nat) (d : α) (h : i < n) :
    (((List.range n).map f).getD i d) = f i := by
  rw [List.getD_eq_getElem?_getD, List.getElem?_map, List.getElem?_range h]
  rfl

/-- The window after k iterations: slot i holds the reading taken at time
k + i - avg (truncated subtraction: the initial reading for early slots). -/
theorem engineAt_window (ncpu : ℚ) (avg : Nat) (samp : Nat → Sample) :
    ∀ k, (engineAt ncpu avg samp k).window
      = (List.range (avg + 1)).map (fun i => samp (k + i - avg)) := by
  intro k
  induction k with
  | zero =>
    simp only [engineAt, initEngine]
    symm
    rw [List.eq_replicate_iff]
    constructor
    · simp
    · intro b hb
      simp only [List.mem_map, List.mem_range] at hb
      obtain ⟨i, hi, hbi⟩ := hb
      rw [← hbi]
      congr 1
      omega
  | succ k ih =>
    have hstep : (engineAt ncpu avg samp (k + 1)).window
        = ((List.range (avg + 1)).map (fun i => samp (k + i - avg))).drop 1
            ++ [samp (k + 1)] := by
      simp only [engineAt, tick, ih]
    rw [hstep]
    conv_lhs => rw [List.range_succ_eq_map]
    simp only [List.map_cons, List.map_map, List.drop_succ_cons, List.drop_zero]
    conv_rhs => rw [List.range_succ]
    simp only [List.map_append, List.map_cons, List.map_nil]
    congr 1
    · apply List.map_congr_left
      intro i hi
      show samp (k + (i + 1) - avg) = samp (k + 1 + i - avg)
      congr 1
      omega
    · have e : k + 1 + avg - avg = k + 1 := by omega
      rw [e]

/-- The utilization after iteration k+1 is the delta formula applied to the
reading from avg ticks ago (the initial reading while k + 1 <= avg) and the
fresh reading. -/
theorem engineAt_util (ncpu : ℚ) (avg : Nat) (samp : Nat → Sample) (k : Nat) :
    (engineAt ncpu avg samp (k + 1)).util
      = utilCalc ncpu (samp (k + 1 - avg)) (samp (k + 1)) := by
  have hw := engineAt_window ncpu avg samp (k + 1)
  have h1 : (engineAt ncpu avg samp (k + 1)).util
      = utilCalc ncpu ((engineAt ncpu avg samp (k + 1)).window.getD 0 (0, 0))
                      ((engineAt ncpu avg samp (k + 1)).window.getD avg (0, 0)) := rfl
  rw [h1, hw, getD_map_range _ _ _ _ (by omega), getD_map_range _ _ _ _ (by omega)]
  have e1 : k + 1 + 0 - avg = k + 1 - avg := by omega
  have e2 : k + 1 + avg - avg = k + 1 := by omega
  rw [e1, e2]

/-! ## Output format lemmas -/

theorem isDig_digitChar (n : Nat) (h : n < 10) : isDig (digitChar n) = true := by
  interval_cases n <;> decide

theorem natDigitsAux_digits : ∀ fuel n : Nat, ∀ c ∈ natDigitsAux fuel n, isDig c = true := by
  intro fuel
  induction fuel with
  | zero =>
    intro n c hc
    simp only [natDigitsAux, List.mem_singleton] at hc
    rw [hc]
    exact isDig_digitChar _ (Nat.mod_lt _ (by omega))
  | succ fuel ih =>
    intro n c hc
    simp only [natDigitsAux] at hc
    by_cases h : n < 10
    · rw [if_pos h] at hc
      simp only [List.mem_singleton] at hc
      rw [hc]
      exact isDig_digitChar _ h
    · rw [if_neg h] at hc
      simp only [List.mem_append, List.mem_singleton] at hc
      rcases hc with hc | hc
      · exact ih _ _ hc
      · rw [hc]
        exact isDig_digitChar _ (Nat.mod_lt _ (by omega))

theorem natDigits_digits (n : Nat) : ∀ c ∈ natDigits n, isDig c = true :=
  natDigitsAux_digits n n

theorem natDigitsAux_ne_nil (fuel n : Nat) : natDigitsAux fuel n ≠ [] := by
  cases fuel with
  | zero => simp [natDigitsAux]
  | succ fuel => by_cases h : n < 10 <;> simp [natDigitsAux, h]

theorem natDigits_ne_nil (n : Nat) : natDigits n ≠ [] := natDigitsAux_ne_nil n n

/-- The shape of "%.1f" output: an optional minus sign, a nonempty block of
digits, a dot, and exactly one digit. -/
theorem fmt1_shape (u : ℚ) :
    ∃ (sign digs : List Char) (d : Nat),
      (sign = [] ∨ sign = ['-']) ∧ d < 10 ∧ digs ≠ [] ∧
      (∀ c ∈ digs, isDig c = true) ∧
      fmt1 u = sign ++ digs ++ ['.', digitChar d] := by
  refine ⟨if roundTenth u < 0 then ['-'] else [],
          natDigits ((roundTenth u).natAbs / 10),
          (roundTenth u).natAbs % 10, ?_, ?_, ?_, ?_, ?_⟩
  · by_cases h : roundTenth u < 0 <;> simp [h]
  · exact Nat.mod_lt _ (by omega)
  · exact natDigits_ne_nil _
  · exact natDigits_digits _
  · rfl

/-- Every character of the output is a digit, a minus sign, a dot, or the
percent sign. -/
theorem writeutil_chars (u : ℚ) :
    ∀ c ∈ writeutil u, isDig c = true ∨ c = '-' ∨ c = '.' ∨ c = '%' := by
  obtain ⟨sign, digs, d, hsign, hd, -, hdigs, hfmt⟩ := fmt1_shape u
  intro c hc
  rw [writeutil, hfmt] at hc
  have k1 : c ∈ sign → isDig c = true ∨ c = '-' ∨ c = '.' ∨ c = '%' := by
    intro h
    rcases hsign with hs | hs <;> subst hs
    · cases h
    · simp only [List.mem_singleton] at h
      subst h
      right; left; rfl
  have k2 : c ∈ digs → isDig c = true ∨ c = '-' ∨ c = '.' ∨ c = '%' :=
    fun h => Or.inl (hdigs c h)
  have k3 : c = '.' → isDig c = true ∨ c = '-' ∨ c = '.' ∨ c = '%' := by
    intro h
    subst h
    right; right; left; rfl
  have k4 : c = digitChar d → isDig c = true ∨ c = '-' ∨ c = '.' ∨ c = '%' := by
    intro h
    subst h
    left
    exact isDig_digitChar _ hd
  have k5 : c = '%' → isDig c = true ∨ c = '-' ∨ c = '.' ∨ c = '%' := by
    intro h
    subst h
    right; right; right; rfl
  simp only [List.mem_append, List.mem_cons, List.not_mem_nil, or_false] at hc
  rcases hc with ((h | h) | h | h) | h
  · exact k1 h
  · exact k2 h
  · exact k3 h
  · exact k4 h
  · exact k5 h

theorem writeutil_no_newline (u : ℚ) : Char.ofNat 10 ∉ writeutil u := by
  intro hmem
  rcases writeutil_chars u _ hmem with h | h | h | h
  · exact absurd h (by decide)
  · exact absurd h (by decide)
  · exact absurd h (by decide)
  · exact absurd h (by decide)

theorem writeutil_last (u : ℚ) : (writeutil u).getLast? = some '%' := by
  rw [writeutil]
  exact List.getLast?_concat _

/-! ## Remaining helpers -/

theorem looseDecimal_of_digits (s : List Char) (h : s.all isDig = true) :
    looseDecimal s = true := by
  have hd : s.dropWhile isDig = [] := by
    rw [List.dropWhile_eq_nil_iff]
    intro x hx
    exact List.all_eq_true.1 h x hx
  simp [looseDecimal, hd]

theorem getLastD_map_range {α : Type} (f : Nat → α) (n : Nat) (d : α) :
    (((List.range (n + 1)).map f).getLastD d) = f n := by
  rw [List.range_succ, List.map_append]
  simp

theorem engineAt_window_zero (samp : Nat → Sample) (k : Nat) :
    (engineAt 1 0 samp k).window = [samp k] := by
  have h := engineAt_window 1 0 samp k
  simpa using h

/-! ## The claims -/

/-- C1, counterexample: the claim says an otherwise well-formed argument
list giving --cpus 0, -n 0 or -i 0 is reported as an invalid command line;
in fact `parseCmdLine` accepts the list "-o out -c 0 -n 0 -i 0" (returns 0,
no help), with ncpu = 0, avg = 0 and interval = 0. -/
theorem C1_counterexample :
    (parseCmdLine (toArgs ["-o", "out", "-c", "0", "-n", "0", "-i", "0"])).1 = 0
    ∧ (parseCmdLine (toArgs ["-o", "out", "-c", "0", "-n", "0", "-i", "0"])).2.given_h = false
    ∧ (parseCmdLine (toArgs ["-o", "out", "-c", "0", "-n", "0", "-i", "0"])).2.ncpu = 0
    ∧ (parseCmdLine (toArgs ["-o", "out", "-c", "0", "-n", "0", "-i", "0"])).2.avg = 0
    ∧ (parseCmdLine (toArgs ["-o", "out", "-c", "0", "-n", "0", "-i", "0"])).2.interval = 0 := by
  refine ⟨by decide, by decide, by decide, by decide, ?_⟩
  simp [parseCmdLine, parseLoop, shortChars, optOfChar, applyOpt, intervalScan, iScan1, iScan2,
        isDig, digVal, intScan, cScan, toArgs, initPState, errCount]

/-- C1, amended: the validator performs no positivity check at all: any
argument list "-o PATH -c A -n B -i C" whose numeric values are digit
strings — zero included — is accepted (return 0, no help), and the fields
receive the scanned values unchecked. -/
theorem C1_no_positivity_check (p a b c : List Char)
    (ha : a.all isDig = true) (hb : b.all isDig = true) (hc : c.all isDig = true) :
    (parseCmdLine [['-', 'o'], p, ['-', 'c'], a, ['-', 'n'], b, ['-', 'i'], c]).1 = 0
    ∧ (parseCmdLine [['-', 'o'], p, ['-', 'c'], a, ['-', 'n'], b, ['-', 'i'], c]).2.given_h = false
    ∧ (parseCmdLine [['-', 'o'], p, ['-', 'c'], a, ['-', 'n'], b, ['-', 'i'], c]).2.ncpu
        = (intScan a).1
    ∧ (parseCmdLine [['-', 'o'], p, ['-', 'c'], a, ['-', 'n'], b, ['-', 'i'], c]).2.avg
        = (intScan b).1
    ∧ (parseCmdLine [['-', 'o'], p, ['-', 'c'], a, ['-', 'n'], b, ['-', 'i'], c]).2.interval
        = (intervalScan c).1
    ∧ (parseCmdLine [['-', 'o'], p, ['-', 'c'], a, ['-', 'n'], b, ['-', 'i'], c]).2.output
        = some p := by
  have hfa : (intScan a).2 = false := by simp [intScan_snd, ha]
  have hfb : (intScan b).2 = false := by simp [intScan_snd, hb]
  have hfc : (intervalScan c).2 = false := by
    simp [intervalScan_snd, looseDecimal_of_digits c hc]
  refine ⟨?_, ?_, ?_, ?_, ?_, ?_⟩ <;>
    simp [parseCmdLine, parseLoop, shortChars, optOfChar, applyOpt, initPState, errCount,
          hfa, hfb, hfc]

/-- C1 witness: the amended theorem at "-o out -c 0 -n 0 -i 0". -/
theorem C1_no_positivity_check_witness :
    (parseCmdLine (toArgs ["-o", "out", "-c", "0", "-n", "0", "-i", "0"])).1 = 0
    ∧ (parseCmdLine (toArgs ["-o", "out", "-c", "0", "-n", "0", "-i", "0"])).2.ncpu = 0 := by
  have h := C1_no_positivity_check ("out".toList) ("0".toList) ("0".toList) ("0".toList)
    (by decide) (by decide) (by decide)
  refine ⟨h.1, ?_⟩
  have h2 := h.2.2.1
  show (parseCmdLine [['-', 'o'], "out".toList, ['-', 'c'], "0".toList, ['-', 'n'],
    "0".toList, ['-', 'i'], "0".toList]).2.ncpu = 0
  rw [h2]
  decide

/-- C2, counterexample: "5." fails the spec pattern digits ('.' digits)? yet
is not flagged — the command line "-o x -c 1 --interval=5." is accepted with
no malformed-interval record; likewise the empty string fails the spec
integer pattern yet "-o x -c (empty)" is accepted with no malformed-cpus
record. -/
theorem C2_counterexample :
    specDecimal ("5.".toList) = false
    ∧ (intervalScan ("5.".toList)).2 = false
    ∧ (parseCmdLine (toArgs ["-o", "x", "-c", "1", "--interval=5."])).1 = 0
    ∧ (parseCmdLine (toArgs ["-o", "x", "-c", "1", "--interval=5."])).2.badintervals = []
    ∧ specInt ("".toList) = false
    ∧ (intScan ("".toList)).2 = false
    ∧ (parseCmdLine (toArgs ["-o", "x", "-c", ""])).1 = 0
    ∧ (parseCmdLine (toArgs ["-o", "x", "-c", ""])).2.badncpus = [] := by
  decide

/-- C2, amended: an interval value is flagged as malformed exactly when it
does not match digits* ('.' digits*)? (digit groups may be empty), and a
cpus or samples value exactly when it contains a non-digit (the empty
string is accepted). -/
theorem C2_flag_patterns :
    (∀ s : List Char, ((intervalScan s).2 = true ↔ looseDecimal s = false))
    ∧ (∀ s : List Char, ((intScan s).2 = true ↔ s.all isDig = false)) := by
  constructor
  · intro s
    rw [intervalScan_snd s]
    cases h : looseDecimal s <;> simp
  · intro s
    rw [intScan_snd s]
    cases h : s.all isDig <;> simp

/-- C3: the long-option table registers the name "ncpu", not "cpus", so
"--cpus=4" is an unrecognized option and --cpus is additionally reported
as not given (ncpu stays 0), while "--ncpu=4" does set the cpus field —
contradicting the usage text, which advertises --cpus=NUM. -/
theorem C3_cpus_long_option :
    (parseCmdLine (toArgs ["--cpus=4", "-o", "out"])).1 = -1
    ∧ (parseCmdLine (toArgs ["--cpus=4", "-o", "out"])).2.nunrecognized = 1
    ∧ (parseCmdLine (toArgs ["--cpus=4", "-o", "out"])).2.given_c = 0
    ∧ (parseCmdLine (toArgs ["--cpus=4", "-o", "out"])).2.ncpu = 0
    ∧ errCount (parseCmdLine (toArgs ["--cpus=4", "-o", "out"])).2 = 2
    ∧ (parseCmdLine (toArgs ["--ncpu=4", "-o", "out"])).1 = 0
    ∧ (parseCmdLine (toArgs ["--ncpu=4", "-o", "out"])).2.ncpu = 4 := by
  decide

/-- C4: on every tick after the first, the reported utilization equals
100 - 100 * ((idleNew - idleOld) / cpuCount / (uptimeNew - uptimeOld)) with
the oldest and newest sample of the updated window; concretely, with
windowSize 1 and cpuCount 1, readings (100.0, 80.0) then (101.0, 80.5)
yield utilization 50, written as "50.0%". -/
theorem C4_windowed_delta :
    (∀ (ncpu : ℚ) (avg : Nat) (samp : Nat → Sample) (k : Nat),
      (engineAt ncpu avg samp (k + 1)).util
        = 100 - 100 *
            ((((engineAt ncpu avg samp (k + 1)).window.getLastD (0, 0)).2
               - ((engineAt ncpu avg samp (k + 1)).window.getD 0 (0, 0)).2) / ncpu
             / (((engineAt ncpu avg samp (k + 1)).window.getLastD (0, 0)).1
                - ((engineAt ncpu avg samp (k + 1)).window.getD 0 (0, 0)).1)))
    ∧ (engineAt 1 1 c4samp 1).util = 50
    ∧ writeutil (engineAt 1 1 c4samp 1).util = "50.0%".toList := by
  have hconc : (engineAt 1 1 c4samp 1).util = 50 := by
    simp [engineAt, tick, initEngine, utilCalc, c4samp]
    norm_num
  refine ⟨?_, hconc, ?_⟩
  · intro ncpu avg samp k
    rw [engineAt_util]
    have hw := engineAt_window ncpu avg samp (k + 1)
    rw [hw, getLastD_map_range, getD_map_range _ _ _ _ (by omega)]
    have e1 : k + 1 + 0 - avg = k + 1 - avg := by omega
    have e2 : k + 1 + avg - avg = k + 1 := by omega
    rw [e1, e2, utilCalc]
  · rw [hconc]
    decide

/-- C5: the window starts as avg+1 copies of the first reading, each tick
shifts it left by one and appends the fresh reading (FIFO), and the
utilization after tick k+1 is a function of exactly the reading from avg
ticks earlier (the initial reading while k+1 <= avg, via truncated
subtraction) and the fresh reading — never an intermediate one. -/
theorem C5_window_fifo :
    (∀ (ncpu : ℚ) (avg : Nat) (samp : Nat → Sample),
       (engineAt ncpu avg samp 0).window = List.replicate (avg + 1) (samp 0))
    ∧ (∀ (ncpu : ℚ) (avg : Nat) (samp : Nat → Sample) (k : Nat),
       (engineAt ncpu avg samp (k + 1)).window
         = (engineAt ncpu avg samp k).window.drop 1 ++ [samp (k + 1)])
    ∧ (∀ (ncpu : ℚ) (avg : Nat) (samp : Nat → Sample) (k : Nat),
       (engineAt ncpu avg samp (k + 1)).util
         = utilCalc ncpu (samp (k + 1 - avg)) (samp (k + 1))) :=
  ⟨fun _ _ _ => rfl, fun _ _ _ _ => rfl,
   fun ncpu avg samp k => engineAt_util ncpu avg samp k⟩

/-- C6: with no help requested the validator rejects exactly when some
error category is nonempty; both missing --output and missing --cpus are
counted when both are absent (two categories), and a duplicated --output
is rejected on its own (one category) even with well-formed values. -/
theorem C6_error_aggregation :
    (∀ args : List Arg, (parseCmdLine args).2.given_h = false →
       ((parseCmdLine args).1 = -1 ↔ errCount (parseCmdLine args).2 ≠ 0))
    ∧ ((parseCmdLine (toArgs ["-i", "1"])).1 = -1
       ∧ (parseCmdLine (toArgs ["-i", "1"])).2.given_o = 0
       ∧ (parseCmdLine (toArgs ["-i", "1"])).2.given_c = 0
       ∧ errCount (parseCmdLine (toArgs ["-i", "1"])).2 = 2)
    ∧ ((parseCmdLine (toArgs ["-o", "a", "-o", "b", "-c", "1"])).1 = -1
       ∧ (parseCmdLine (toArgs ["-o", "a", "-o", "b", "-c", "1"])).2.given_o = 2
       ∧ errCount (parseCmdLine (toArgs ["-o", "a", "-o", "b", "-c", "1"])).2 = 1) :=
  ⟨parseCmdLine_ret, by decide, by decide⟩

/-- C6 witness: the equivalence at the well-formed list "-o a -c 1". -/
theorem C6_error_aggregation_witness :
    ((parseCmdLine (toArgs ["-o", "a", "-c", "1"])).1 = -1
      ↔ errCount (parseCmdLine (toArgs ["-o", "a", "-c", "1"])).2 ≠ 0) :=
  C6_error_aggregation.1 _ (by decide)

/-- C7, counterexample: the argument list "-o -h" contains -h, yet getopt
consumes "-h" as the value of -o, so no help is signalled; validation runs
and rejects the line for its other problems (missing --cpus). -/
theorem C7_counterexample :
    (parseCmdLine (toArgs ["-o", "-h"])).2.given_h = false
    ∧ (parseCmdLine (toArgs ["-o", "-h"])).2.output = some ("-h".toList)
    ∧ (parseCmdLine (toArgs ["-o", "-h"])).1 = -1
    ∧ (parseCmdLine (toArgs ["-o", "-h"])).2.given_c = 0 := by
  decide

/-- C7, amended: whenever -h or --help is reached as an option element (not
consumed as the value of a preceding value-taking option and not after the
"--" terminator), the loop returns immediately with the help signal and
every later argument and every accumulated error is ignored; an argument
list starting with -h yields the pristine state with only given_h set; and
the help path exits through the same usage branch of main as an invalid
command line. -/
theorem C7_help_short_circuit :
    (∀ (rest : List Arg) (st : PState),
       parseLoop (['-', 'h'] :: rest) none st = .help { st with given_h := true })
    ∧ (∀ (rest : List Arg) (st : PState),
       parseLoop (('-' :: '-' :: "help".toList) :: rest) none st
         = .help { st with given_h := true })
    ∧ (∀ rest : List Arg,
       parseCmdLine (['-', 'h'] :: rest) = (0, { initPState with given_h := true }))
    ∧ (∀ args : List Arg, (parseCmdLine args).2.given_h = true → usageExit args = true)
    ∧ (∀ args : List Arg, (parseCmdLine args).1 = -1 → usageExit args = true) := by
  refine ⟨fun _ _ => rfl, fun _ _ => rfl, fun _ => rfl, ?_, ?_⟩
  · intro args h
    simp [usageExit, h]
  · intro args h
    simp [usageExit, h]

/-- C7 witness: a -h followed by garbage short-circuits, and help and
invalid lines both exit through the usage branch. -/
theorem C7_help_short_circuit_witness :
    parseLoop (toArgs ["-h", "--bogus", "-o"]) none initPState
      = .help { initPState with given_h := true }
    ∧ usageExit (toArgs ["-h", "--bogus", "-o"]) = true
    ∧ usageExit (toArgs []) = true := by
  refine ⟨?_, ?_, ?_⟩
  · exact C7_help_short_circuit.1 (toArgs ["--bogus", "-o"]) initPState
  · exact C7_help_short_circuit.2.2.2.1 _ (by decide)
  · exact C7_help_short_circuit.2.2.2.2 _ (by decide)

/-- C8: the failures the loop detects are immediately fatal — a failed
initial read writes nothing and exits -1; a failed fopen of the output
exits -1 with nothing written that tick and the rest of the run abandoned;
a failed read exits -1 right after that tick's write.  But `writeutil`
never inspects the result of fprintf/fclose (`writeutilRet` is 0 whenever
fopen succeeded), so a failure of the stream write itself goes undetected:
the loop continues and a further utilization value is written on the next
tick, against the claim that no further value is ever written. -/
theorem C8_io_failure :
    (∀ (ncpu : ℚ) (avg : Nat) (ticks : List IOTick),
       mainRun ncpu avg none ticks = ([], some (-1)))
    ∧ (mainLoop 1 0 [⟨false, true, some (2, 1)⟩, ⟨true, true, some (3, 1)⟩]
         (initEngine 1 0 (1, 1)) = ([], some (-1)))
    ∧ ((mainLoop 1 0 [⟨true, true, none⟩, ⟨true, true, some (3, 1)⟩]
         (initEngine 1 0 (1, 1))).1.length = 1
       ∧ (mainLoop 1 0 [⟨true, true, none⟩, ⟨true, true, some (3, 1)⟩]
           (initEngine 1 0 (1, 1))).2 = some (-1))
    ∧ writeutilRet true = 0
    ∧ ((mainLoop 1 0 [⟨true, false, some (2, 1)⟩, ⟨true, true, some (3, 1)⟩]
         (initEngine 1 0 (1, 1))).1.map Prod.fst = [false, true]
       ∧ (mainLoop 1 0 [⟨true, false, some (2, 1)⟩, ⟨true, true, some (3, 1)⟩]
           (initEngine 1 0 (1, 1))).2 = none) := by
  refine ⟨fun _ _ _ => rfl, by decide, ⟨by decide, by decide⟩, rfl, by decide, by decide⟩

/-- C9: the file content after a successful write is exactly an optional
minus sign, a nonempty run of digits, a dot, one digit, and a percent sign
— one decimal place, terminated by the percent sign, with no newline and
nothing else; 23.7 is written as "23.7%". -/
theorem C9_output_format :
    (∀ u : ℚ, ∃ (sign digs : List Char) (d : Nat),
        (sign = [] ∨ sign = ['-']) ∧ d < 10 ∧ digs ≠ [] ∧
        (∀ c ∈ digs, isDig c = true) ∧
        writeutil u = sign ++ digs ++ ['.', digitChar d, '%'])
    ∧ (∀ u : ℚ, Char.ofNat 10 ∉ writeutil u)
    ∧ (∀ u : ℚ, (writeutil u).getLast? = some '%')
    ∧ writeutil (mkRat 237 10) = "23.7%".toList := by
  refine ⟨?_, writeutil_no_newline, writeutil_last, by decide⟩
  intro u
  obtain ⟨sign, digs, d, hsign, hd, hne, hdigs, hfmt⟩ := fmt1_shape u
  refine ⟨sign, digs, d, hsign, hd, hne, hdigs, ?_⟩
  rw [writeutil, hfmt]
  simp

/-- C9 witness: the shape at 23.7 and the percent terminator at 0. -/
theorem C9_output_format_witness :
    (∃ (sign digs : List Char) (d : Nat),
        (sign = [] ∨ sign = ['-']) ∧ d < 10 ∧ digs ≠ [] ∧
        (∀ c ∈ digs, isDig c = true) ∧
        writeutil (mkRat 237 10) = sign ++ digs ++ ['.', digitChar d, '%'])
    ∧ (writeutil 0).getLast? = some '%' :=
  ⟨C9_output_format.1 (mkRat 237 10), C9_output_format.2.2.1 0⟩

/-- C10: "-o out -c 1 -n 0" is accepted with avg = 0 and ncpu = 1; with
avg = 0 the window is the single slot holding the latest reading, so on
every loop tick the oldest and newest sample coincide and the uptime delta
the utilization formula divides by is 0, whatever the counters return. -/
theorem C10_zero_delta_window :
    ((parseCmdLine (toArgs ["-o", "out", "-c", "1", "-n", "0"])).1 = 0
     ∧ (parseCmdLine (toArgs ["-o", "out", "-c", "1", "-n", "0"])).2.given_h = false
     ∧ (parseCmdLine (toArgs ["-o", "out", "-c", "1", "-n", "0"])).2.ncpu = 1
     ∧ (parseCmdLine (toArgs ["-o", "out", "-c", "1", "-n", "0"])).2.avg = 0)
    ∧ (∀ (samp : Nat → Sample) (k : Nat), (engineAt 1 0 samp k).window = [samp k])
    ∧ (∀ (samp : Nat → Sample) (k : Nat),
        ((engineAt 1 0 samp (k + 1)).window.getLastD (0, 0)).1
          - ((engineAt 1 0 samp (k + 1)).window.getD 0 (0, 0)).1 = 0) := by
  refine ⟨⟨by decide, by decide, by decide, by decide⟩, ?_, ?_⟩
  · intro samp k
    exact engineAt_window_zero samp k
  · intro samp k
    rw [engineAt_window_zero samp (k + 1)]
    simp

end Cpuwatch
